import Mathlib

/-!
Shallow embedding of the `alphatrak` Home Assistant integration
(`custom_components/alphatrak`): the API client's response
interpretation (`api.py`), the activity normalizer helpers, the
coordinator's poll cycle (`coordinator.py`) and the sensor-side glucose
average (`sensor.py`).

Modelling conventions:
  * JSON scalars are `Value` (string / number / boolean / null); numbers
    are exact rationals (the source runs on Python floats/ints; every
    property proved here only involves values where the two agree).
  * A decoded JSON object (Python `dict`) is an association list
    `List (String × Value)` with unique keys, preserving insertion
    order, exactly as Python 3 dicts do.  `List.lookup` is `dict.get`.
  * Network effects are split off: each operation is embedded as a pure
    function of the HTTP status and the decoded body (`none` = body
    that fails to parse as JSON), plus the mutable session state where
    the source mutates `self`.
  * Python's `sorted(l, key=k, reverse=True)` (a stable descending
    sort) is embedded as the stable insertion sort `pySortedDesc`.
-/

namespace AlphaTrak

/-- A scalar JSON value as carried by activity entries. -/
inductive Value where
  | str (s : String)
  | num (q : ℚ)
  | boolean (b : Bool)
  | null
deriving DecidableEq, Repr

/-- True exactly on string values (Python `isinstance(val, str)`). -/
def Value.isStr : Value → Bool
  | .str _ => true
  | _ => false

/-- The string payload of a string value, `""` otherwise. -/
def Value.asStr : Value → String
  | .str s => s
  | _ => ""

/-- An activity entry: a decoded JSON object, field order preserved. -/
abbrev Entry := List (String × Value)

/-- Python dict assignment `e[k] = v`: overwrite in place when the key
exists, else append the new binding at the end. -/
def setField (e : Entry) (k : String) (v : Value) : Entry :=
  if e.any (fun p => p.1 == k) then
    e.map (fun p => if p.1 == k then (k, v) else p)
  else
    e ++ [(k, v)]

/-- Python `key.endswith(sfx)`. -/
def strEndsWith (k sfx : String) : Bool :=
  decide (sfx.toList <:+ k.toList)

/-- Python `sub in key` (substring containment). -/
def strContainsSub (k sub : String) : Bool :=
  decide (sub.toList <:+: k.toList)

/-- The decoded `ResponseData` of an activity fetch: top-level
`MinRange` / `MaxRange` (null when absent — Python sees `None` either
way) and the `PetActivity` object mapping category names to entry
lists. -/
structure ActivityData where
  MinRange : Value
  MaxRange : Value
  PetActivity : List (String × List Entry)
deriving DecidableEq, Repr

/-- `AlphaTrakApi._extract_entry_datetime` (api.py:266-280): first a
field whose name ends with `EntryDateTime` and whose value is a string;
then any field whose name contains `EntryDateTime` with a string value,
then any containing `EntryDate`; else `""`.  (The source's second scan
tries the candidates `EntryDateTime` and `EntryDate` in that order.) -/
def extract_entry_datetime (e : Entry) : String :=
  match e.find? (fun p => strEndsWith p.1 "EntryDateTime" && p.2.isStr) with
  | some p => p.2.asStr
  | none =>
    match e.find? (fun p => strContainsSub p.1 "EntryDateTime" && p.2.isStr) with
    | some p => p.2.asStr
    | none =>
      match e.find? (fun p => strContainsSub p.1 "EntryDate" && p.2.isStr) with
      | some p => p.2.asStr
      | none => ""

/-- The sort key of `get_latest_activities` (api.py:328):
`self._extract_entry_datetime(x) or ""` — the `or ""` is the identity
since the extractor already returns `""` on failure. -/
def extractKey (e : Entry) : String :=
  extract_entry_datetime e

/-- The sort key of `get_latest_glucose_reading` (api.py:232):
`x.get("GlucoseEntryDateTime", "")`.  (A non-string value there would
make Python's mixed-type comparison raise; such entries are outside the
model and every theorem below only meets string-valued keys.) -/
def glucoseKey (e : Entry) : String :=
  match List.lookup "GlucoseEntryDateTime" e with
  | some v => v.asStr
  | none => ""

/-- Lexicographic comparison of char lists by code point, the order
Python uses on strings. -/
def charListLt : List Char → List Char → Bool
  | _, [] => false
  | [], _ :: _ => true
  | a :: as, b :: bs =>
    if a < b then true
    else if b < a then false
    else charListLt as bs

/-- Python `a < b` on strings. -/
def pyStrLt (a b : String) : Bool :=
  charListLt a.toList b.toList

/-- Python `a <= b` on strings. -/
def pyStrLe (a b : String) : Bool :=
  !(pyStrLt b a)

/-- Insert one element into a descending-sorted list, before the first
element whose key is not greater — the insertion step of a stable
descending sort. -/
def insertDesc (key : Entry → String) (x : Entry) : List Entry → List Entry
  | [] => [x]
  | y :: ys =>
    if pyStrLt (key x) (key y) = true then y :: insertDesc key x ys
    else x :: y :: ys

/-- Python `sorted(l, key=key, reverse=True)`: stable, descending. -/
def pySortedDesc (key : Entry → String) (l : List Entry) : List Entry :=
  l.foldr (insertDesc key) []

/-- Range annotation applied to a glucose entry: set `MinRange` and
`MaxRange` from the payload's top-level fields (api.py:239-240,
260-262, 299-301, 335-337). -/
def annotateRange (ad : ActivityData) (e : Entry) : Entry :=
  setField (setField e "MinRange" ad.MinRange) "MaxRange" ad.MaxRange

/-- The post-fetch body of `AlphaTrakApi.get_latest_glucose_reading`
(api.py:213-242) applied to one category list: `None` on an empty list,
else the head of the descending sort by `GlucoseEntryDateTime`,
range-annotated. -/
def latestGlucoseOf (ad : ActivityData) (bg : List Entry) : Option Entry :=
  if bg = [] then none
  else
    match pySortedDesc glucoseKey bg with
    | [] => none
    | latest :: _ => some (annotateRange ad latest)

/-- `AlphaTrakApi.get_latest_glucose_reading` as a function of the
fetched activity data (`none` = the fetch returned no payload). -/
def get_latest_glucose_reading (d : Option ActivityData) : Option Entry :=
  match d with
  | none => none
  | some ad =>
    latestGlucoseOf ad ((List.lookup "BloodGlucose" ad.PetActivity).getD [])

/-- `AlphaTrakApi.get_glucose_readings` (api.py:244-264) as a function
of the fetched activity data: the raw BloodGlucose list (server order),
each entry range-annotated. -/
def get_glucose_readings (d : Option ActivityData) : List Entry :=
  match d with
  | none => []
  | some ad =>
    ((List.lookup "BloodGlucose" ad.PetActivity).getD []).map (annotateRange ad)

/-- The per-category body of `AlphaTrakApi.get_latest_activities`
(api.py:321-339): `None` for an empty list, else the head of the
descending stable sort by the extracted datetime, with every sorted
BloodGlucose entry range-annotated before the head is taken. -/
def latestEntryFor (ad : ActivityData) (ty : String) (entries : List Entry) :
    Option Entry :=
  if entries = [] then none
  else if ty = "BloodGlucose" then
    ((pySortedDesc extractKey entries).map (annotateRange ad)).head?
  else
    (pySortedDesc extractKey entries).head?

/-- `AlphaTrakApi.get_latest_activities` (api.py:305-341) as a function
of the fetched activity data. -/
def get_latest_activities (d : Option ActivityData) :
    List (String × Option Entry) :=
  match d with
  | none => []
  | some ad =>
    ad.PetActivity.map (fun p => (p.1, latestEntryFor ad p.1 p.2))

/-- The decoded response envelope `{ IsSuccess, ResponseData }`:
`IsSuccess` is the truthiness of `response_data.get("IsSuccess",
False)`, `ResponseData` is `response_data.get("ResponseData")` (`none`
for both a missing key and JSON null). -/
structure Envelope where
  IsSuccess : Bool
  ResponseData : Option ActivityData
deriving DecidableEq, Repr

/-- The error taxonomy raised by response interpretation.  `authError`
is `AlphaTrakAuthError`; the others are `AlphaTrakApiError` with the
source's distinct messages. -/
inductive FetchError where
  | authError
  | apiStatus (status : Nat)
  | invalidJson
  | unsuccessful
  | missingUserId
deriving DecidableEq, Repr

/-- The response interpretation of `AlphaTrakApi.get_pet_activity`
(api.py:132-201), a function of the HTTP status and the decoded body
(`none` when the body is not parseable JSON), in source order:
401 check, JSON-parse check, non-OK-with-data check, success-flag
check. -/
def get_pet_activity (status : Nat) (body : Option Envelope) :
    Except FetchError (Option ActivityData) :=
  if status = 401 then .error .authError
  else
    match body with
    | none =>
      if status ≠ 200 then .error (.apiStatus status)
      else .error .invalidJson
    | some response_data =>
      if status ≠ 200 then
        match response_data.ResponseData with
        | some d => .ok (some d)
        | none => .error (.apiStatus status)
      else
        if response_data.IsSuccess = false then
          match response_data.ResponseData with
          | some d => .ok (some d)
          | none => .error .unsuccessful
        else
          .ok response_data.ResponseData

/-- Python `f"{x}"` on an optional string: `None` renders as "None". -/
def pyStrOptional : Option String → String
  | some s => s
  | none => "None"

/-- The session state owned by `AlphaTrakApi`: bearer token, user id
and pet id (api.py:53-62). -/
structure Session where
  token : Option String
  userId : Option Int
  petId : Option Int
deriving DecidableEq, Repr

/-- `AlphaTrakApi.set_token` (api.py:74-76): unconditionally replace
the stored token. -/
def set_token (st : Session) (t : Option String) : Session :=
  { st with token := t }

/-- The request headers built by `AlphaTrakApi.get_pet_activity`
(api.py:102-113). -/
def get_pet_activity_headers (st : Session) : List (String × String) :=
  [ ("Accept", "*/*"),
    ("User-Agent",
      "AlphaTRAK/1.40.3 (com.zoetis.alphatrak; build:39; iOS 18.6.2) Alamofire/4.9.1"),
    ("Host", "alphatrakapi.zoetis.com"),
    ("Connection", "keep-alive"),
    ("Accept-Language", "en-US;q=1.0"),
    ("Content-Type", "application/json"),
    ("Authorization", "bearer " ++ pyStrOptional st.token) ]

/-- `AlphaTrakApi.validate_connection` (api.py:78-91) as a function of
the outcome of its 1-day `get_pet_activity` call: every error of the
taxonomy is swallowed into `false`; success yields `data is not None`. -/
def validate_connection (r : Except FetchError (Option ActivityData)) : Bool :=
  match r with
  | .error _ => false
  | .ok data => data.isSome

/-- The decoded `AuthToken` object of a login response. -/
structure AuthTokenObj where
  access_token : Option String
deriving DecidableEq, Repr

/-- The decoded `ResponseData` of a login response: the optional
`AuthToken` object and the optional account `Id`. -/
structure LoginRespData where
  AuthToken : Option AuthTokenObj
  Id : Value
deriving DecidableEq, Repr

/-- A decoded login response envelope. -/
structure LoginEnvelope where
  IsSuccess : Bool
  ResponseData : Option LoginRespData
deriving DecidableEq, Repr

/-- Python `int(v)` under `except (ValueError, TypeError)` as used for
the login response's `Id` (api.py:410-414): numbers truncate, strings
parse, booleans coerce, anything else yields `None`. -/
def intOfValue : Value → Option Int
  | .num q => some q.floor
  | .str s => s.toInt?
  | .boolean b => some (if b then 1 else 0)
  | .null => none

/-- The empty `LoginRespData`, the result of `resp.get(...) or {}`. -/
def emptyLoginResp : LoginRespData :=
  { AuthToken := none, Id := .null }

/-- `AlphaTrakApi.login` (api.py:362-427) as a function of the session
and the HTTP exchange: status checks first (`response.json()` runs
after them, so an unparseable body on a non-200 status never surfaces
as `invalidJson`), then the success flag; the token is stored only when
`auth.get("access_token")` is truthy, and the account id is
(re)assigned in the same branch; the parsed `resp` is returned in every
successful case. -/
def login (st : Session) (status : Nat) (body : Option LoginEnvelope) :
    Except FetchError (LoginRespData × Session) :=
  if status = 401 then .error .authError
  else if status ≠ 200 then .error (.apiStatus status)
  else
    match body with
    | none => .error .invalidJson
    | some response_data =>
      if response_data.IsSuccess = false then .error .unsuccessful
      else
        let resp := response_data.ResponseData.getD emptyLoginResp
        let auth := resp.AuthToken.getD { access_token := none }
        match auth.access_token with
        | some t =>
          if t ≠ "" then
            .ok (resp,
              { st with
                token := some t,
                userId := if resp.Id = .null then none else intOfValue resp.Id })
          else .ok (resp, st)
        | none => .ok (resp, st)

/-- The decoded `ResponseData` of a pet-list response: either a JSON
list of pet objects or some other (non-list) shape. -/
inductive PetsData where
  | petList (l : List Entry)
  | nonList
deriving DecidableEq, Repr

/-- A decoded pet-list response envelope. -/
structure PetsEnvelope where
  IsSuccess : Bool
  ResponseData : Option PetsData
deriving DecidableEq, Repr

/-- `AlphaTrakApi.get_pets` (api.py:429-487): the guards on the session
run before any network interaction (the `net` argument stands for the
HTTP exchange and is not consulted by them); `if not self._token` and
`if not self._user_id` are Python truthiness, so an empty-string token
and a zero user id also trip the guards. -/
def get_pets (st : Session) (net : Nat × Option PetsEnvelope) :
    Except FetchError (List Entry) :=
  if st.token = none ∨ st.token = some "" then .error .authError
  else if st.userId = none ∨ st.userId = some 0 then .error .missingUserId
  else
    match net with
    | (status, body) =>
      if status ≠ 200 then .error (.apiStatus status)
      else
        match body with
        | none => .error .invalidJson
        | some response_data =>
          if response_data.IsSuccess = false then .error .unsuccessful
          else
            match response_data.ResponseData with
            | some (.petList l) => .ok l
            | some .nonList => .ok []
            | none => .ok []

/-- The three exception kinds `AlphaTrakApi` operations raise, as seen
by the coordinator's `except` clauses. -/
inductive ApiExc where
  | auth
  | conn
  | api
deriving DecidableEq, Repr

/-- A value stored in the coordinator's published data dict. -/
inductive SnapVal where
  | entry (e : Entry)
  | entryList (l : List Entry)
  | pet (p : Option Int)
deriving DecidableEq, Repr

/-- The outcome of one `_async_update_data` call: a published snapshot
dict, `ConfigEntryAuthFailed`, or `UpdateFailed` with its message. -/
inductive CoordinatorResult where
  | snapshot (s : List (String × SnapVal))
  | configEntryAuthFailed
  | updateFailed (msg : String)
deriving DecidableEq, Repr

/-- `AlphaTrakCoordinator._async_update_data` (coordinator.py:43-68) as
a function of the two fetches it performs (`r1` feeds
`get_latest_glucose_reading`, `r2` feeds `get_glucose_readings`) and
the client's pet id: a `None` latest reading raises
`UpdateFailed("No glucose readings found")` (not caught by the
`except` clauses); `AlphaTrakAuthError` becomes
`ConfigEntryAuthFailed`; connection and API errors become
`UpdateFailed`; otherwise the returned dict has exactly the keys
`latest_reading`, `recent_readings`, `pet_id`. -/
def _async_update_data
    (r1 r2 : Except ApiExc (Option ActivityData)) (petId : Option Int) :
    CoordinatorResult :=
  match r1 with
  | .error .auth => .configEntryAuthFailed
  | .error .conn => .updateFailed "Connection error"
  | .error .api => .updateFailed "API error"
  | .ok d1 =>
    match get_latest_glucose_reading d1 with
    | none => .updateFailed "No glucose readings found"
    | some latest_reading =>
      match r2 with
      | .error .auth => .configEntryAuthFailed
      | .error .conn => .updateFailed "Connection error"
      | .error .api => .updateFailed "API error"
      | .ok d2 =>
        .snapshot
          [ ("latest_reading", .entry latest_reading),
            ("recent_readings", .entryList (get_glucose_readings d2)),
            ("pet_id", .pet petId) ]

/-- The glucose values collected by
`AlphaTrakSensor.extra_state_attributes` (sensor.py:353-357): each
reading's `GlucoseLevel` where present and not `None`. -/
def glucoseValues (recent_readings : List Entry) : List Value :=
  recent_readings.filterMap (fun r =>
    match List.lookup "GlucoseLevel" r with
    | some v => if v = Value.null then none else some v
    | none => none)

/-- Sum of a list of numeric values; `none` as soon as a non-numeric
value appears (where Python's `sum` would raise). -/
def sumNums : List Value → Option ℚ
  | [] => some 0
  | .num q :: rest => (sumNums rest).map (fun s => q + s)
  | _ => none

/-- Round-half-to-even to an integer, mirroring Python 3 `round`. -/
def roundHalfEven (q : ℚ) : ℤ :=
  if q - ⌊q⌋ < 1/2 then ⌊q⌋
  else if 1/2 < q - ⌊q⌋ then ⌊q⌋ + 1
  else if ⌊q⌋ % 2 = 0 then ⌊q⌋ else ⌊q⌋ + 1

/-- Python `round(x, 1)`: round to one decimal place (modelled exactly
over the rationals; the source rounds a float). -/
def round1 (q : ℚ) : ℚ :=
  (roundHalfEven (10 * q) : ℚ) / 10

/-- The `average_last_7_days` attribute (sensor.py:352-361): the
rounded mean of the collected glucose values, absent (`none`) when no
reading carries the field. -/
def averageLast7 (recent_readings : List Entry) : Option ℚ :=
  if glucoseValues recent_readings = [] then none
  else
    (sumNums (glucoseValues recent_readings)).map
      (fun s => round1 (s / (glucoseValues recent_readings).length))

/-- A minimal concrete activity payload used by witnesses. -/
def adEx : ActivityData :=
  { MinRange := .num 70, MaxRange := .num 180,
    PetActivity := [("BloodGlucose", [[("GlucoseEntryDateTime", .str "2024-01-01T08:00:00"), ("GlucoseLevel", .num 110)]])] }

/-- A payload with activity data but no BloodGlucose entries. -/
def adNoBG : ActivityData :=
  { MinRange := .null, MaxRange := .null,
    PetActivity := [("Feeding", [[("FeedingEntryDateTime", .str "2024-01-01T08:00:00")]])] }

/-- A BloodGlucose entry whose datetime lives in a heuristically
matched field rather than `GlucoseEntryDateTime`. -/
def entryFoo : Entry := [("FooEntryDateTime", .str "2024-02-01T00:00:00")]

/-- A BloodGlucose entry with the standard `GlucoseEntryDateTime`
field, older than `entryFoo`. -/
def entryStd : Entry := [("GlucoseEntryDateTime", .str "2024-01-01T00:00:00")]

/-- A payload on which the two sort keys of `get_latest_glucose_reading`
and `get_latest_activities` pick different winners. -/
def adDiv : ActivityData :=
  { MinRange := .null, MaxRange := .null,
    PetActivity := [("BloodGlucose", [entryFoo, entryStd])] }

/-!  Supporting lemmas.  -/

theorem endsWith_entryDateTime_contains {k : String}
    (h : strEndsWith k "EntryDateTime" = true) :
    strContainsSub k "EntryDate" = true := by
  unfold strEndsWith at h
  unfold strContainsSub
  rw [decide_eq_true_iff] at h ⊢
  have h1 : "EntryDate".toList <+: "EntryDateTime".toList :=
    ⟨"Time".toList, by decide⟩
  exact h1.isInfix.trans h.isInfix

theorem containsSub_entryDateTime_contains {k : String}
    (h : strContainsSub k "EntryDateTime" = true) :
    strContainsSub k "EntryDate" = true := by
  unfold strContainsSub at h ⊢
  rw [decide_eq_true_iff] at h ⊢
  have h1 : "EntryDate".toList <+: "EntryDateTime".toList :=
    ⟨"Time".toList, by decide⟩
  exact h1.isInfix.trans h

theorem charListLt_irrefl : ∀ l : List Char, charListLt l l = false := by
  intro l
  induction l with
  | nil => rfl
  | cons a as ih => simp [charListLt, ih]

theorem charListLt_asymm : ∀ {l₁ l₂ : List Char},
    charListLt l₁ l₂ = true → charListLt l₂ l₁ = false := by
  intro l₁
  induction l₁ with
  | nil =>
    intro l₂ _
    rcases l₂ with _ | ⟨b, bs⟩ <;> rfl
  | cons a as ih =>
    intro l₂ h
    rcases l₂ with _ | ⟨b, bs⟩
    · exact absurd h (by simp [charListLt])
    · simp only [charListLt] at h ⊢
      by_cases hab : a < b
      · rw [if_neg (asymm hab), if_pos hab]
      · rw [if_neg hab] at h
        by_cases hba : b < a
        · rw [if_pos hba] at h
          exact absurd h (by simp)
        · rw [if_neg hba] at h
          rw [if_neg hba, if_neg hab]
          exact ih h

theorem charListLt_negtrans : ∀ {c a b : List Char},
    charListLt c a = true →
    charListLt c b = true ∨ charListLt b a = true := by
  intro c
  induction c with
  | nil =>
    intro a b h
    rcases a with _ | ⟨a0, as⟩
    · exact absurd h (by simp [charListLt])
    · rcases b with _ | ⟨b0, bs⟩
      · exact Or.inr rfl
      · exact Or.inl rfl
  | cons c0 cs ih =>
    intro a b h
    rcases a with _ | ⟨a0, as⟩
    · exact absurd h (by simp [charListLt])
    · rcases b with _ | ⟨b0, bs⟩
      · exact Or.inr rfl
      · simp only [charListLt] at h ⊢
        by_cases hcb : c0 < b0
        · exact Or.inl (by rw [if_pos hcb])
        · by_cases hca : c0 < a0
          · refine Or.inr ?_
            have hba : b0 < a0 := lt_of_le_of_lt (le_of_not_lt hcb) hca
            rw [if_pos hba]
          · rw [if_neg hca] at h
            by_cases hac : a0 < c0
            · rw [if_pos hac] at h
              exact absurd h (by simp)
            · rw [if_neg hac] at h
              have hceqa : c0 = a0 := le_antisymm (le_of_not_lt hac) (le_of_not_lt hca)
              subst hceqa
              by_cases hbc : b0 < c0
              · exact Or.inr (by rw [if_pos hbc])
              · have hbeqc : b0 = c0 := le_antisymm (le_of_not_lt hcb) (le_of_not_lt hbc)
                subst hbeqc
                rcases ih (a := as) (b := bs) h with h1 | h1
                · exact Or.inl (by rw [if_neg hcb, if_neg hcb, h1])
                · exact Or.inr (by rw [if_neg hcb, if_neg hcb, h1])

theorem pyStrLe_refl (a : String) : pyStrLe a a = true := by
  unfold pyStrLe pyStrLt
  rw [charListLt_irrefl]
  rfl

theorem pyStrLe_of_lt {a b : String} (h : pyStrLt a b = true) :
    pyStrLe a b = true := by
  unfold pyStrLe
  unfold pyStrLt at h ⊢
  rw [charListLt_asymm h]
  rfl

theorem pyStrLe_of_not_lt {a b : String} (h : pyStrLt a b = false) :
    pyStrLe b a = true := by
  unfold pyStrLe
  rw [h]
  rfl

theorem pyStrLe_trans {a b c : String}
    (h1 : pyStrLe a b = true) (h2 : pyStrLe b c = true) :
    pyStrLe a c = true := by
  unfold pyStrLe pyStrLt at h1 h2 ⊢
  rw [Bool.not_eq_true'] at h1 h2 ⊢
  by_contra hne
  rw [Bool.not_eq_false] at hne
  rcases charListLt_negtrans (b := b.toList) hne with h | h
  · rw [h2] at h
    exact absurd h (by simp)
  · rw [h1] at h
    exact absurd h (by simp)

theorem pySortedDesc_cons (key : Entry → String) (x : Entry) (xs : List Entry) :
    pySortedDesc key (x :: xs) = insertDesc key x (pySortedDesc key xs) := rfl

theorem mem_insertDesc {key : Entry → String} {x y : Entry} :
    ∀ {s : List Entry}, y ∈ insertDesc key x s ↔ y = x ∨ y ∈ s := by
  intro s
  induction s with
  | nil => simp [insertDesc]
  | cons z zs ih =>
    simp only [insertDesc]
    by_cases hc : pyStrLt (key x) (key z) = true
    · rw [if_pos hc]
      simp only [List.mem_cons, ih]
      tauto
    · rw [if_neg hc]
      simp [List.mem_cons]

theorem mem_pySortedDesc {key : Entry → String} {y : Entry} :
    ∀ {l : List Entry}, y ∈ pySortedDesc key l ↔ y ∈ l := by
  intro l
  induction l with
  | nil => simp [pySortedDesc]
  | cons x xs ih =>
    rw [pySortedDesc_cons, mem_insertDesc, ih, List.mem_cons]

theorem length_insertDesc (key : Entry → String) (x : Entry) :
    ∀ s : List Entry, (insertDesc key x s).length = s.length + 1 := by
  intro s
  induction s with
  | nil => rfl
  | cons z zs ih =>
    simp only [insertDesc]
    by_cases hc : pyStrLt (key x) (key z) = true
    · rw [if_pos hc]
      simp [ih]
    · rw [if_neg hc]
      simp

theorem length_pySortedDesc (key : Entry → String) :
    ∀ l : List Entry, (pySortedDesc key l).length = l.length := by
  intro l
  induction l with
  | nil => rfl
  | cons x xs ih =>
    rw [pySortedDesc_cons, length_insertDesc, ih, List.length_cons]

theorem insertDesc_congr {k1 k2 : Entry → String} {x : Entry}
    (hx : k1 x = k2 x) :
    ∀ {s : List Entry}, (∀ y ∈ s, k1 y = k2 y) →
      insertDesc k1 x s = insertDesc k2 x s := by
  intro s
  induction s with
  | nil => intro _; rfl
  | cons z zs ih =>
    intro hs
    simp only [insertDesc]
    rw [hx, hs z (by simp)]
    by_cases hc : pyStrLt (k2 x) (k2 z) = true
    · rw [if_pos hc, if_pos hc]
      rw [ih (fun y hy => hs y (by simp [hy]))]
    · rw [if_neg hc, if_neg hc]

theorem pySortedDesc_congr {k1 k2 : Entry → String} :
    ∀ {l : List Entry}, (∀ y ∈ l, k1 y = k2 y) →
      pySortedDesc k1 l = pySortedDesc k2 l := by
  intro l
  induction l with
  | nil => intro _; rfl
  | cons x xs ih =>
    intro h
    rw [pySortedDesc_cons, pySortedDesc_cons,
      ih (fun y hy => h y (by simp [hy]))]
    exact insertDesc_congr (h x (by simp))
      (fun y hy => h y (by simp [mem_pySortedDesc.1 hy]))

theorem head_pySortedDesc (key : Entry → String) :
    ∀ l : List Entry, l ≠ [] →
      ∃ e l1 l2, l = l1 ++ e :: l2 ∧
        (∀ x ∈ l, pyStrLe (key x) (key e) = true) ∧
        (∀ x ∈ l1, pyStrLt (key x) (key e) = true) ∧
        (pySortedDesc key l).head? = some e := by
  intro l
  induction l with
  | nil => intro h; exact absurd rfl h
  | cons x xs ih =>
    intro _
    by_cases hxs : xs = []
    · subst hxs
      refine ⟨x, [], [], rfl, ?_, by simp, rfl⟩
      intro z hz
      rcases List.mem_cons.1 hz with hz | hz
      · subst hz; exact pyStrLe_refl _
      · exact absurd hz (by simp)
    · obtain ⟨e, l1, l2, hsplit, hmax, hpre, hhead⟩ := ih hxs
      have hs : pySortedDesc key xs = e :: (pySortedDesc key xs).tail := by
        rcases h : pySortedDesc key xs with _ | ⟨a, t⟩
        · rw [h] at hhead; simp at hhead
        · rw [h] at hhead
          simp only [List.head?] at hhead
          injection hhead with ha
          simp [ha]
      rw [pySortedDesc_cons, hs]
      simp only [insertDesc]
      by_cases hc : pyStrLt (key x) (key e) = true
      · refine ⟨e, x :: l1, l2, by rw [hsplit]; rfl, ?_, ?_, by rw [if_pos hc]; rfl⟩
        · intro z hz
          rcases List.mem_cons.1 hz with hz | hz
          · subst hz; exact pyStrLe_of_lt hc
          · exact hmax z hz
        · intro z hz
          rcases List.mem_cons.1 hz with hz | hz
          · subst hz; exact hc
          · exact hpre z hz
      · rw [Bool.not_eq_true] at hc
        refine ⟨x, [], xs, rfl, ?_, by simp,
          by rw [if_neg (by rw [hc]; simp : ¬pyStrLt (key x) (key e) = true)]; rfl⟩
        intro z hz
        rcases List.mem_cons.1 hz with hz | hz
        · subst hz; exact pyStrLe_refl _
        · exact pyStrLe_trans (hmax z hz) (pyStrLe_of_not_lt hc)

theorem lookup_map_pairs {α β : Type} (g : String → α → β) (k : String) :
    ∀ l : List (String × α),
      List.lookup k (l.map (fun p => (p.1, g p.1 p.2))) =
        (List.lookup k l).map (g k) := by
  intro l
  induction l with
  | nil => rfl
  | cons p rest ih =>
    simp only [List.map, List.lookup]
    by_cases h : k == p.1
    · rw [h]
      simp only [Option.map]
      rw [eq_of_beq h]
    · rw [Bool.not_eq_true] at h
      rw [h, ih]

theorem sumNums_map_num : ∀ qs : List ℚ,
    sumNums (qs.map Value.num) = some qs.sum := by
  intro qs
  induction qs with
  | nil => rfl
  | cons q rest ih => simp [sumNums, ih]

/-!  Theorems, one per claim of the specification.  -/

/-- C1: `get_pet_activity` interprets every response by the ordered
decision table: 401 is `AuthError` regardless of body; an unparseable
body is `ApiError` (with the status when it is not 200, "Invalid JSON
response" when it is); a non-200 status with a non-null `ResponseData`
returns that payload; a non-200 status without one is `ApiError` with
the status; status 200 with a present payload returns it irrespective
of the success flag; status 200, flag false, no payload is `ApiError`;
status 200 with flag true returns the payload. -/
theorem C1_fetch_decision_table :
    (∀ body, get_pet_activity 401 body = .error .authError) ∧
    (∀ status, status ≠ 401 → status ≠ 200 →
      get_pet_activity status none = .error (.apiStatus status)) ∧
    (get_pet_activity 200 none = .error .invalidJson) ∧
    (∀ status env d, status ≠ 401 → status ≠ 200 → env.ResponseData = some d →
      get_pet_activity status (some env) = .ok (some d)) ∧
    (∀ status env, status ≠ 401 → status ≠ 200 → env.ResponseData = none →
      get_pet_activity status (some env) = .error (.apiStatus status)) ∧
    (∀ env d, env.ResponseData = some d →
      get_pet_activity 200 (some env) = .ok (some d)) ∧
    (∀ env, env.IsSuccess = false → env.ResponseData = none →
      get_pet_activity 200 (some env) = .error .unsuccessful) ∧
    (∀ env, env.IsSuccess = true →
      get_pet_activity 200 (some env) = .ok env.ResponseData) := by
  refine ⟨?_, ?_, ?_, ?_, ?_, ?_, ?_, ?_⟩
  · intro body; simp [get_pet_activity]
  · intro status h1 h2; simp [get_pet_activity, h1, h2]
  · simp [get_pet_activity]
  · intro status env d h1 h2 h3; simp [get_pet_activity, h1, h2, h3]
  · intro status env h1 h2 h3; simp [get_pet_activity, h1, h2, h3]
  · intro env d h
    rcases henv : env.IsSuccess with _ | _ <;>
      simp [get_pet_activity, h, henv]
  · intro env h1 h2; simp [get_pet_activity, h1, h2]
  · intro env h; simp [get_pet_activity, h]

/-- Witness for C1: rule 3 at status 404 with a present payload. -/
theorem C1_witness :
    get_pet_activity 404 (some ⟨false, some adEx⟩) = .ok (some adEx) :=
  C1_fetch_decision_table.2.2.2.1 404 ⟨false, some adEx⟩ adEx
    (by decide) (by decide) rfl

/-- C8: `set_token` unconditionally replaces the stored bearer token,
leaves the user id and pet id unchanged, and the next
`get_pet_activity` request carries the new token in its
`Authorization` header. -/
theorem C8_set_token_frame (st : Session) (t : String) :
    (set_token st (some t)).token = some t ∧
    (set_token st (some t)).userId = st.userId ∧
    (set_token st (some t)).petId = st.petId ∧
    List.lookup "Authorization"
        (get_pet_activity_headers (set_token st (some t))) =
      some ("bearer " ++ t) := by
  refine ⟨rfl, rfl, rfl, ?_⟩
  simp [set_token, get_pet_activity_headers, pyStrOptional, List.lookup]

/-- C7: `extract_entry_datetime` returns the value of the field whose
name ends with `EntryDateTime` when that is the unique such
string-valued field (so for any entry with a single `X_EntryDateTime`
field its value is returned regardless of field order or other
fields); it returns `""` when no field name containing `EntryDate` has
a string value; and any non-`""` result is the string value of some
field whose name contains `EntryDate`.  Totality of the Lean function
embeds "must not throw". -/
theorem C7_extract_entry_datetime :
    (∀ (e : Entry) (k : String) (v : String),
      (k, Value.str v) ∈ e →
      strEndsWith k "EntryDateTime" = true →
      (∀ p ∈ e, strEndsWith p.1 "EntryDateTime" = true → p.2.isStr = true →
        p = (k, Value.str v)) →
      extract_entry_datetime e = v) ∧
    (∀ e : Entry,
      (∀ p ∈ e, strContainsSub p.1 "EntryDate" = true → p.2.isStr = false) →
      extract_entry_datetime e = "") ∧
    (∀ e : Entry, extract_entry_datetime e ≠ "" →
      ∃ p ∈ e, strContainsSub p.1 "EntryDate" = true ∧ p.2.isStr = true ∧
        extract_entry_datetime e = p.2.asStr) := by
  refine ⟨?_, ?_, ?_⟩
  · intro e k v hmem hsfx huniq
    unfold extract_entry_datetime
    rcases hf : e.find? (fun p => strEndsWith p.1 "EntryDateTime" && p.2.isStr)
      with _ | p
    · rw [List.find?_eq_none] at hf
      have := hf _ hmem
      simp [hsfx, Value.isStr] at this
    · have hp := List.find?_some hf
      have hpm := List.mem_of_find?_eq_some hf
      rw [Bool.and_eq_true] at hp
      have hpe := huniq p hpm hp.1 hp.2
      rw [hf]
      show p.2.asStr = v
      rw [hpe]
      rfl
  · intro e h
    have h1 : e.find? (fun p => strEndsWith p.1 "EntryDateTime" && p.2.isStr)
        = none := by
      rw [List.find?_eq_none]
      intro p hp
      rw [Bool.and_eq_true, not_and]
      intro hs his
      rw [h p hp (endsWith_entryDateTime_contains hs)] at his
      exact absurd his (by simp)
    have h2 : e.find? (fun p => strContainsSub p.1 "EntryDateTime" && p.2.isStr)
        = none := by
      rw [List.find?_eq_none]
      intro p hp
      rw [Bool.and_eq_true, not_and]
      intro hs his
      rw [h p hp (containsSub_entryDateTime_contains hs)] at his
      exact absurd his (by simp)
    have h3 : e.find? (fun p => strContainsSub p.1 "EntryDate" && p.2.isStr)
        = none := by
      rw [List.find?_eq_none]
      intro p hp
      rw [Bool.and_eq_true, not_and]
      intro hs his
      rw [h p hp hs] at his
      exact absurd his (by simp)
    unfold extract_entry_datetime
    rw [h1, h2, h3]
  · intro e hne
    unfold extract_entry_datetime at hne ⊢
    rcases hf1 : e.find? (fun p => strEndsWith p.1 "EntryDateTime" && p.2.isStr)
      with _ | p
    · rw [hf1] at hne
      rcases hf2 :
          e.find? (fun p => strContainsSub p.1 "EntryDateTime" && p.2.isStr)
        with _ | p
      · rw [hf2] at hne
        rcases hf3 :
            e.find? (fun p => strContainsSub p.1 "EntryDate" && p.2.isStr)
          with _ | p
        · rw [hf3] at hne
          exact absurd rfl hne
        · have hp := List.find?_some hf3
          rw [Bool.and_eq_true] at hp
          exact ⟨p, List.mem_of_find?_eq_some hf3, hp.1, hp.2,
            by rw [hf1, hf2, hf3]⟩
      · have hp := List.find?_some hf2
        rw [Bool.and_eq_true] at hp
        exact ⟨p, List.mem_of_find?_eq_some hf2,
          containsSub_entryDateTime_contains hp.1, hp.2, by rw [hf1, hf2]⟩
    · have hp := List.find?_some hf1
      rw [Bool.and_eq_true] at hp
      exact ⟨p, List.mem_of_find?_eq_some hf1,
        endsWith_entryDateTime_contains hp.1, hp.2, by rw [hf1]⟩

/-- Witness for C7: an entry with one `GlucoseEntryDateTime` field
placed after another field. -/
theorem C7_witness :
    extract_entry_datetime
        [("GlucoseLevel", Value.num 110),
         ("GlucoseEntryDateTime", Value.str "2024-01-01T08:00:00")] =
      "2024-01-01T08:00:00" :=
  C7_extract_entry_datetime.1
    [("GlucoseLevel", Value.num 110),
     ("GlucoseEntryDateTime", Value.str "2024-01-01T08:00:00")]
    "GlucoseEntryDateTime" "2024-01-01T08:00:00"
    (by simp) (by decide) (by decide)

/-- C9: the published 7-day glucose average is the arithmetic mean of
the `GlucoseLevel` values of the readings carrying that field, rounded
to one decimal place, and is absent when no reading carries it. -/
theorem C9_average_last_7_days (rs : List Entry) (qs : List ℚ)
    (h : glucoseValues rs = qs.map Value.num) :
    averageLast7 rs =
      if qs = [] then none else some (round1 (qs.sum / qs.length)) := by
  unfold averageLast7
  rw [h, sumNums_map_num]
  rcases qs with _ | ⟨q, rest⟩
  · simp
  · simp [Option.map]

/-- Witness for C9: readings with levels 110 and 95 average to 102.5. -/
theorem C9_witness :
    averageLast7
        [[("GlucoseLevel", Value.num 110)], [("GlucoseLevel", Value.num 95)]] =
      some (205 / 2) := by
  rw [C9_average_last_7_days
    [[("GlucoseLevel", Value.num 110)], [("GlucoseLevel", Value.num 95)]]
    [110, 95] (by rfl)]
  rw [if_neg (by simp : ¬([110, 95] : List ℚ) = [])]
  norm_num [round1, roundHalfEven]

/-- C3: `get_latest_activities` maps every category of the payload
positionally; a category maps to `None` exactly when its entry list is
empty, and otherwise to the entry whose extracted datetime string is
lexicographically greatest — ties broken in favor of the entry that
appears first in the original server order — range-annotated when the
category is BloodGlucose. -/
theorem C3_latest_per_category :
    (∀ ad : ActivityData, get_latest_activities (some ad) =
        ad.PetActivity.map (fun p => (p.1, latestEntryFor ad p.1 p.2))) ∧
    (∀ (ad : ActivityData) (ty : String) (entries : List Entry),
      latestEntryFor ad ty entries = none ↔ entries = []) ∧
    (∀ (ad : ActivityData) (ty : String) (entries : List Entry),
      entries ≠ [] →
      ∃ e l1 l2, entries = l1 ++ e :: l2 ∧
        (∀ x ∈ entries, pyStrLe (extractKey x) (extractKey e) = true) ∧
        (∀ x ∈ l1, pyStrLt (extractKey x) (extractKey e) = true) ∧
        latestEntryFor ad ty entries =
          some (if ty = "BloodGlucose" then annotateRange ad e else e)) := by
  refine ⟨fun ad => rfl, ?_, ?_⟩
  · intro ad ty entries
    constructor
    · intro hn
      by_contra hne
      obtain ⟨e, l1, l2, _, _, _, hhead⟩ :=
        head_pySortedDesc extractKey entries hne
      unfold latestEntryFor at hn
      rw [if_neg hne] at hn
      by_cases hty : ty = "BloodGlucose"
      · rw [if_pos hty, List.head?_map, hhead] at hn
        exact Option.noConfusion hn
      · rw [if_neg hty, hhead] at hn
        exact Option.noConfusion hn
    · intro h
      subst h
      rfl
  · intro ad ty entries hne
    obtain ⟨e, l1, l2, hsplit, hmax, hpre, hhead⟩ :=
      head_pySortedDesc extractKey entries hne
    refine ⟨e, l1, l2, hsplit, hmax, hpre, ?_⟩
    unfold latestEntryFor
    rw [if_neg hne]
    by_cases hty : ty = "BloodGlucose"
    · rw [if_pos hty, if_pos hty, List.head?_map, hhead]
      rfl
    · rw [if_neg hty, if_neg hty, hhead]

/-- Witness for C3: two Feeding entries, the later-dated one wins. -/
theorem C3_witness :
    ∃ e l1 l2,
      ([[("FeedingEntryDateTime", Value.str "2024-01-01T00:00:00")],
        [("FeedingEntryDateTime", Value.str "2024-01-02T00:00:00")]] :
          List Entry) = l1 ++ e :: l2 ∧
      (∀ x ∈ ([[("FeedingEntryDateTime", Value.str "2024-01-01T00:00:00")],
        [("FeedingEntryDateTime", Value.str "2024-01-02T00:00:00")]] :
          List Entry), pyStrLe (extractKey x) (extractKey e) = true) ∧
      (∀ x ∈ l1, pyStrLt (extractKey x) (extractKey e) = true) ∧
      latestEntryFor adEx "Feeding"
          [[("FeedingEntryDateTime", Value.str "2024-01-01T00:00:00")],
           [("FeedingEntryDateTime", Value.str "2024-01-02T00:00:00")]] =
        some (if "Feeding" = "BloodGlucose" then
          annotateRange adEx e else e) :=
  C3_latest_per_category.2.2 adEx "Feeding"
    [[("FeedingEntryDateTime", Value.str "2024-01-01T00:00:00")],
     [("FeedingEntryDateTime", Value.str "2024-01-02T00:00:00")]]
    (by simp)

/-- Counterexample for C4: on a payload whose BloodGlucose entries
carry their datetime in a field other than `GlucoseEntryDateTime`, the
head of `get_latest_glucose_reading`'s sort diverges from
`get_latest_activities`' winner, because the former sorts by the
`GlucoseEntryDateTime` field only while the latter sorts by the
heuristic extractor. -/
theorem C4_counterexample :
    List.lookup "BloodGlucose" (get_latest_activities (some adDiv)) ≠
      some (get_latest_glucose_reading (some adDiv)) := by
  decide

/-- C4 (amended): when every BloodGlucose entry's heuristically
extracted datetime coincides with its `GlucoseEntryDateTime` sort key
(in particular whenever the datetime lives in the standard
`GlucoseEntryDateTime` string field), the winner of
`get_latest_glucose_reading`'s sort-then-head equals the BloodGlucose
winner published by `get_latest_activities`. -/
theorem C4_amended_equivalence (ad : ActivityData) (bg : List Entry)
    (hbg : List.lookup "BloodGlucose" ad.PetActivity = some bg)
    (hkeys : ∀ r ∈ bg, extractKey r = glucoseKey r) :
    List.lookup "BloodGlucose" (get_latest_activities (some ad)) =
      some (get_latest_glucose_reading (some ad)) := by
  have hmap :
      List.lookup "BloodGlucose" (get_latest_activities (some ad)) =
        some (latestEntryFor ad "BloodGlucose" bg) := by
    show List.lookup "BloodGlucose"
        (ad.PetActivity.map (fun p => (p.1, latestEntryFor ad p.1 p.2))) = _
    rw [lookup_map_pairs (fun s entries => latestEntryFor ad s entries)
      "BloodGlucose" ad.PetActivity, hbg]
    rfl
  rw [hmap]
  have hg : get_latest_glucose_reading (some ad) = latestGlucoseOf ad bg := by
    show latestGlucoseOf ad ((List.lookup "BloodGlucose" ad.PetActivity).getD [])
      = latestGlucoseOf ad bg
    rw [hbg]
    rfl
  rw [hg]
  by_cases hni : bg = []
  · subst hni
    rfl
  · unfold latestEntryFor latestGlucoseOf
    rw [if_neg hni, if_neg hni, if_pos rfl,
      pySortedDesc_congr hkeys, List.head?_map]
    rcases hs : pySortedDesc glucoseKey bg with _ | ⟨a, t⟩
    · exfalso
      apply hni
      have := length_pySortedDesc glucoseKey bg
      rw [hs] at this
      exact List.length_eq_zero.1 this.symm
    · rfl

/-- Witness for C4 (amended): on `adEx`, whose single BloodGlucose
entry keeps its datetime in `GlucoseEntryDateTime`, the two paths
agree. -/
theorem C4_witness :
    List.lookup "BloodGlucose" (get_latest_activities (some adEx)) =
      some (get_latest_glucose_reading (some adEx)) :=
  C4_amended_equivalence adEx
    [[("GlucoseEntryDateTime", Value.str "2024-01-01T08:00:00"),
      ("GlucoseLevel", Value.num 110)]]
    (by rfl) (by decide)

/-- C5: a fetched window with no BloodGlucose reading makes the poll
cycle fail with `UpdateFailed` — the same exception kind an
`AlphaTrakApiError` produces — rather than publishing a snapshot. -/
theorem C5_no_glucose_is_cycle_failure (ad : ActivityData)
    (h : (List.lookup "BloodGlucose" ad.PetActivity).getD [] = [])
    (r2 : Except ApiExc (Option ActivityData)) (petId : Option Int) :
    _async_update_data (.ok (some ad)) r2 petId =
        .updateFailed "No glucose readings found" ∧
    (∀ s, _async_update_data (.ok (some ad)) r2 petId ≠ .snapshot s) ∧
    _async_update_data (.error .api) r2 petId = .updateFailed "API error" := by
  have hl : get_latest_glucose_reading (some ad) = none := by
    show latestGlucoseOf ad ((List.lookup "BloodGlucose" ad.PetActivity).getD [])
      = none
    rw [h]
    rfl
  refine ⟨?_, ?_, rfl⟩
  · simp [_async_update_data, hl]
  · intro s
    simp [_async_update_data, hl]

/-- Witness for C5: a payload with only Feeding data fails the cycle. -/
theorem C5_witness :
    _async_update_data (.ok (some adNoBG)) (.ok none) none =
        .updateFailed "No glucose readings found" ∧
    (∀ s, _async_update_data (.ok (some adNoBG)) (.ok none) none ≠
      .snapshot s) ∧
    _async_update_data (.error .api) (.ok none) none =
      .updateFailed "API error" :=
  C5_no_glucose_is_cycle_failure adNoBG (by rfl) (.ok none) none

/-- C6: a login response that parses, reports success, but carries no
truthy access token leaves the session untouched (`login` still
returns the parsed body), and a subsequent `get_pets` fails with
`AuthError` no matter what the network would have answered. -/
theorem C6_login_without_token (st : Session) (env : LoginEnvelope)
    (resp : LoginRespData)
    (hst : st.token = none)
    (hs : env.IsSuccess = true)
    (hr : env.ResponseData = some resp)
    (hnt : (resp.AuthToken.getD { access_token := none }).access_token = none ∨
      (resp.AuthToken.getD { access_token := none }).access_token = some "") :
    login st 200 (some env) = .ok (resp, st) ∧
    ∀ net, get_pets st net = .error .authError := by
  constructor
  · rcases hnt with h | h <;> simp [login, hs, hr, h]
  · intro net
    unfold get_pets
    rw [if_pos (Or.inl hst)]

/-- Witness for C6: the empty session and a successful login envelope
whose `ResponseData` has no `AuthToken` object. -/
theorem C6_witness :
    login { token := none, userId := none, petId := none } 200
        (some { IsSuccess := true,
                ResponseData := some { AuthToken := none, Id := .null } }) =
      .ok ({ AuthToken := none, Id := .null },
        { token := none, userId := none, petId := none }) ∧
    ∀ net, get_pets { token := none, userId := none, petId := none } net =
      .error .authError :=
  C6_login_without_token
    { token := none, userId := none, petId := none }
    { IsSuccess := true, ResponseData := some { AuthToken := none, Id := .null } }
    { AuthToken := none, Id := .null }
    rfl rfl rfl (Or.inl rfl)

/-- C2 (code bug): a successful poll cycle publishes a snapshot whose
keys are exactly `latest_reading`, `recent_readings` and `pet_id` —
the `recent_activities` and `latest_activities` fields the sensor
layer reads from the coordinator's data are never present. -/
theorem C2_snapshot_missing_activity_fields :
    ∃ snap,
      _async_update_data (.ok (some adEx)) (.ok (some adEx)) (some 1) =
        .snapshot snap ∧
      snap.map Prod.fst = ["latest_reading", "recent_readings", "pet_id"] ∧
      List.lookup "recent_activities" snap = none ∧
      List.lookup "latest_activities" snap = none := by
  refine ⟨_, rfl, rfl, rfl, rfl⟩

/-- C10: `validate_connection` never raises — every `AuthError`,
`ConnectionError` or `ApiError` from the underlying fetch yields
`false` — and it returns `true` exactly when the fetch completes with a
non-`None` payload. -/
theorem C10_validate_connection :
    (∀ e, validate_connection (.error e) = false) ∧
    (∀ d, validate_connection (.ok d) = d.isSome) ∧
    (∀ r, validate_connection r = true ↔ ∃ ad, r = .ok (some ad)) := by
  refine ⟨fun e => rfl, fun d => rfl, fun r => ?_⟩
  rcases r with e | d
  · simp [validate_connection]
  · rcases d with _ | ad <;> simp [validate_connection]

end AlphaTrak
